import Mathlib

/-!
Verification development for the markdown dead-link checker
(reedspool/standard).  Paths, hrefs and URLs are modelled as `List Char`;
the two HTTP strategies (puppeteer page navigation and the `fetch` HEAD
probe) are modelled as functions returning `Except JsError Nat`: a thrown
JS error becomes `Except.error`, a response with a numeric status becomes
`Except.ok`.
-/

namespace Standard

/-- A thrown JavaScript error, identified by its message. -/
structure JsError where
  message : List Char
deriving DecidableEq, Repr

/-- Source `part_000` line 123 (`/^https?:\/\//.test(href)`): does the
href match the anchored regex `^https?://`. -/
def isHttpUrl (l : List Char) : Bool :=
  ("http://".data).isPrefixOf l || ("https://".data).isPrefixOf l

/-- Source `part_000` lines 153-159 (`resolvePath`).  The JS body is
`if (/^\//.test(to)) return to; return from.replace(/\/?[^/]+$/, "/" + to)`.
The regex match (when it exists) is the final run of non-slash characters
together with the slash immediately before it (if any); it is replaced by
`"/" + to`.  `seg` below is that final run (computed on the reversed
string), `rest` is the reversed remainder, which starts with the matched
slash when it is nonempty.  When the final run is empty (the path is empty
or ends in a slash) the regex does not match and `from` is returned
unchanged. -/
def resolvePath (f t : List Char) : List Char :=
  if t.head? = some '/' then t
  else
    let seg := f.reverse.takeWhile (fun c => decide (c ≠ '/'))
    let rest := f.reverse.dropWhile (fun c => decide (c ≠ '/'))
    if seg = [] then f
    else if rest = [] then '/' :: t
    else rest.tail.reverse ++ '/' :: t

/-- Source `part_000` lines 162-164: compose the URL of a repository file
at the checked commit.  `repo` and `sha` are the environment inputs
GITHUB_REPOSITORY and GITHUB_SHA. -/
def githubUrlFromPath (repo sha path : List Char) : List Char :=
  "https://github.com/".data ++ repo ++ "/blob/".data ++ sha ++ "/".data ++ path

/-- Source `part_000` lines 121-124: the URL actually handed to both
verification strategies (href unchanged when absolute, otherwise the
composed repository URL of the textually resolved path). -/
def resolvedUrl (repo sha file href : List Char) : List Char :=
  if isHttpUrl href then href else githubUrlFromPath repo sha (resolvePath file href)

/-- The outcome objects built by `checkLink` in `part_000` (lines
117-149).  The source object literals contain only `status`, `original`
and (on the fallback path) `error`; the summary code later reads a `file`
property from them, so the model carries a `file` field, which `checkLink`
always leaves `none` exactly as the source never sets it. -/
structure VerificationOutcome where
  status : Option Nat
  original : List Char
  error : Option JsError
  file : Option (List Char)
deriving DecidableEq, Repr

/-- Source `part_000` lines 117-149 (`checkLink`).  The first component is
the settled result of the returned promise (`Except.error` = rejection:
the `fetch` fallback is not wrapped in any try/catch, so its error
escapes).  The second component records whether the fallback strategy was
invoked at all. -/
def checkLink (primary fallback : List Char → Except JsError Nat)
    (repo sha file href : List Char) : Except JsError VerificationOutcome × Bool :=
  match primary (resolvedUrl repo sha file href) with
  | Except.ok s => (Except.ok ⟨some s, href, none, none⟩, false)
  | Except.error e =>
    match fallback (resolvedUrl repo sha file href) with
    | Except.ok s2 => (Except.ok ⟨some s2, href, some e, none⟩, true)
    | Except.error e2 => (Except.error e2, true)

/-- The condition `status < 200 || status >= 300` of `part_000` line 68
and `part_001` line 61, over an optional status.  A JS comparison against
`undefined` is false, so a missing status makes both disjuncts false. -/
def statusOutside2xx : Option Nat → Bool
  | some s => decide (s < 200) || decide (300 ≤ s)
  | none => false

/-- Source `part_000` line 68: an outcome is routed to the failure branch
(red cross, pushed onto `allErrors`) exactly when its status is outside
[200,300). -/
def isFailureOutcome (o : VerificationOutcome) : Bool :=
  statusOutside2xx o.status

/-- Source `part_001` lines 60-68: `countErrors++` sits in the ELSE branch
of `if (status < 200 || status >= 300)`, so this iteration counts an
outcome as an error exactly when the condition is false. -/
def part001ErrorCounted (status : Option Nat) : Bool :=
  !(statusOutside2xx status)

/-- Source `part_000` lines 66-77: the per-file `forEach` over the settled
checks.  A rejected entry has an undefined `value`, so destructuring it
throws a TypeError and the loop aborts: entries after the first rejection
are never reported.  Returns (outcomes reported, failures pushed onto
`allErrors`, whether the loop aborted). -/
def reportFileChecks : List (Except JsError VerificationOutcome) →
    List VerificationOutcome × List VerificationOutcome × Bool
  | [] => ([], [], false)
  | Except.error _ :: _ => ([], [], true)
  | Except.ok o :: rest =>
    let r := reportFileChecks rest
    (o :: r.1, (if isFailureOutcome o then o :: r.2.1 else r.2.1), r.2.2)

/-- Source `part_000` line 114: strip the leading `root + "/"` from a
path. -/
def stripRoot (root p : List Char) : List Char :=
  if (root ++ ['/']).isPrefixOf p then p.drop (root.length + 1) else p

/-- Source `part_000` line 167. -/
def summaryEllipsis : List Char := "......".data

/-- Source `part_000` lines 169-170. -/
def summaryLinkMaxLength : Nat :=
  ("https://d2mxu07abcdefg".data ++ summaryEllipsis ++ "+at+2.24.55+PM.png".data).length

/-- Source `part_000` lines 173-180 (`summarizeLink`). -/
def summarizeLink (link : List Char) : List Char :=
  if link.length ≤ summaryLinkMaxLength then link
  else
    link.take ((summaryLinkMaxLength - summaryEllipsis.length) / 2)
      ++ summaryEllipsis
      ++ link.drop (link.length - (summaryLinkMaxLength - summaryEllipsis.length) / 2)

/-- One row of the final ascii error table (`part_000` line 91). -/
structure SummaryRow where
  status : Option Nat
  link : List Char
  file : List Char
deriving DecidableEq, Repr

/-- The TypeError thrown when the summary loop passes the absent `file`
property of an outcome to `stripRoot`. -/
def jsTypeError : JsError := ⟨"TypeError".data⟩

/-- Source `part_000` lines 90-93: build the error-table rows.  Each
outcome lacking a `file` property makes the `stripRoot` call throw a
TypeError, which aborts the whole summary. -/
def buildRows (root : List Char) : List VerificationOutcome → Except JsError (List SummaryRow)
  | [] => Except.ok []
  | o :: rest =>
    match o.file with
    | none => Except.error jsTypeError
    | some p =>
      (buildRows root rest).map fun rows =>
        ⟨o.status, summarizeLink o.original, stripRoot root p⟩ :: rows

/-- Source `part_000` lines 84-100 plus the `unhandledRejection` handler
(lines 19-22): if the rows build, the table and totals are printed and the
process exits 0; if the build throws, `main` rejects, the handler fires
and the process exits 1 without printing the table or totals.  Returns
(exit code, whether the table and totals were printed). -/
def summaryStage (root : List Char) (allErrors : List VerificationOutcome) : Nat × Bool :=
  match buildRows root allErrors with
  | Except.ok _ => (0, true)
  | Except.error _ => (1, false)

/-- Source `part_000` lines 53-78: each per-file async task prints its
section (numbered by the shared `countFiles` counter) as soon as its own
checks settle, so the order of sections in the transcript is the order in
which file tasks complete.  `completion` is that completion order, as
indices into the discovered file list. -/
def part000Report {α : Type} (files : List α) (completion : List Nat) : List α :=
  completion.filterMap fun i => files[i]?

/-- Source `part_002` second program, lines 127-146: `Promise.all` stores
each task result in the slot of its original index as tasks complete;
`results` is then iterated in index order.  `sched` is the completion
order; each completion writes the file value into its own slot. -/
def settleSlots {α : Type} (files : List α) (sched : List Nat) : List (Option α) :=
  sched.foldl (fun slots i => slots.set i files[i]?) (List.replicate files.length none)

/-- Modelled from the spec: the bounded FIFO dispatcher is the external
puppeteer-cluster library; only its configuration (`maxConcurrency`,
`part_000` lines 36-46) appears in src.  A state holds the FIFO queue of
submitted tasks and the tasks currently in flight in the primary
strategy. -/
structure PoolState where
  queued : List Nat
  inflight : List Nat
deriving DecidableEq, Repr

/-- Modelled from the spec: a dispatcher transition.  `start` admits the
head of the queue only while fewer than N tasks are in flight; `finish`
retires any in-flight task. -/
inductive PoolStep (N : Nat) : PoolState → PoolState → Prop
  | start (t : Nat) (q fl : List Nat) (h : fl.length < N) :
      PoolStep N ⟨t :: q, fl⟩ ⟨q, t :: fl⟩
  | finish (q pre post : List Nat) (t : Nat) :
      PoolStep N ⟨q, pre ++ t :: post⟩ ⟨q, pre ++ post⟩

/-- Reflexive-transitive closure of `PoolStep`. -/
inductive PoolReaches (N : Nat) : PoolState → PoolState → Prop
  | refl (s : PoolState) : PoolReaches N s s
  | tail {a b c : PoolState} : PoolReaches N a b → PoolStep N b c → PoolReaches N a c

/-- If a predicate holds on all of `l1`, `takeWhile` passes through `l1`
and continues on `l2`. -/
lemma takeWhile_append_all {p : Char → Bool} (l1 l2 : List Char)
    (h : ∀ c ∈ l1, p c = true) :
    (l1 ++ l2).takeWhile p = l1 ++ l2.takeWhile p := by
  induction l1 with
  | nil => simp
  | cons a l ih =>
    have ha : p a = true := h a (List.mem_cons_self a l)
    simp [List.takeWhile_cons, ha, ih (fun c hc => h c (List.mem_cons_of_mem a hc))]

/-- If a predicate holds on all of `l1`, `dropWhile` discards `l1` and
continues on `l2`. -/
lemma dropWhile_append_all {p : Char → Bool} (l1 l2 : List Char)
    (h : ∀ c ∈ l1, p c = true) :
    (l1 ++ l2).dropWhile p = l2.dropWhile p := by
  induction l1 with
  | nil => simp
  | cons a l ih =>
    have ha : p a = true := h a (List.mem_cons_self a l)
    simp [List.dropWhile_cons, ha, ih (fun c hc => h c (List.mem_cons_of_mem a hc))]

/-- Every character of the reversal of a slash-free string satisfies the
non-slash predicate used by `resolvePath`. -/
lemma slash_pred_all_of_not_mem {s : List Char} (hsl : '/' ∉ s) :
    ∀ c ∈ s.reverse, (fun c => decide (c ≠ '/')) c = true := by
  intro c hc
  simp only [List.mem_reverse] at hc
  simp only [decide_eq_true_eq]
  intro e
  exact hsl (e ▸ hc)

/-- Claim C7: for a relative href (no `^https?://` match, no leading
slash), `resolvePath` replaces the last path segment of the source file
with the href, preserving the directory prefix verbatim and performing no
normalization. -/
theorem resolvePath_replaces_last_segment (p s t : List Char)
    (hs : s ≠ []) (hsl : '/' ∉ s) (ht : t.head? ≠ some '/') (_hu : isHttpUrl t = false) :
    resolvePath (p ++ '/' :: s) t = p ++ '/' :: t := by
  have hrev : (p ++ '/' :: s).reverse = s.reverse ++ '/' :: p.reverse := by
    simp [List.reverse_append]
  have hall := slash_pred_all_of_not_mem hsl
  have hseg : (p ++ '/' :: s).reverse.takeWhile (fun c => decide (c ≠ '/')) = s.reverse := by
    rw [hrev, takeWhile_append_all _ _ hall]
    simp
  have hrest : (p ++ '/' :: s).reverse.dropWhile (fun c => decide (c ≠ '/')) = '/' :: p.reverse := by
    rw [hrev, dropWhile_append_all _ _ hall]
    simp
  unfold resolvePath
  rw [if_neg ht]
  simp only [hseg, hrest]
  rw [if_neg (by simpa using hs), if_neg (by simp)]
  simp

/-- Claim C7 witness: the round-trip example of the spec, with the `./`
segment preserved verbatim. -/
theorem resolvePath_replaces_last_segment_witness :
    ("file.md".data ≠ [] ∧ '/' ∉ "file.md".data
      ∧ ("./other.md".data : List Char).head? ≠ some '/' ∧ isHttpUrl ("./other.md".data) = false)
    ∧ resolvePath ("dir".data ++ '/' :: "file.md".data) ("./other.md".data)
        = "dir".data ++ '/' :: "./other.md".data :=
  ⟨⟨by decide, by decide, by decide, by decide⟩,
    resolvePath_replaces_last_segment ("dir".data) ("file.md".data) ("./other.md".data)
      (by decide) (by decide) (by decide) (by decide)⟩

/-- Claim C10: for a relative href found in a markdown file at the scanned
root (a source path with no slash), `resolvePath` prepends a slash instead
of keeping the empty directory prefix, so the composed repository URL has
a double slash right after the commit SHA. -/
theorem resolvePath_root_file_double_slash (repo sha f t : List Char)
    (hf : f ≠ []) (hsl : '/' ∉ f) (ht : t.head? ≠ some '/') (_hu : isHttpUrl t = false) :
    resolvePath f t = '/' :: t
    ∧ githubUrlFromPath repo sha (resolvePath f t)
        = "https://github.com/".data ++ repo ++ "/blob/".data ++ sha ++ '/' :: '/' :: t := by
  have hall := slash_pred_all_of_not_mem hsl
  have hseg : f.reverse.takeWhile (fun c => decide (c ≠ '/')) = f.reverse := by
    have := takeWhile_append_all (p := fun c => decide (c ≠ '/')) f.reverse [] hall
    simpa using this
  have hrest : f.reverse.dropWhile (fun c => decide (c ≠ '/')) = [] := by
    have := dropWhile_append_all (p := fun c => decide (c ≠ '/')) f.reverse [] hall
    simpa using this
  have h1 : resolvePath f t = '/' :: t := by
    unfold resolvePath
    rw [if_neg ht]
    simp only [hseg, hrest]
    rw [if_neg (by simpa using hf)]
    simp
  refine ⟨h1, ?_⟩
  rw [h1]
  unfold githubUrlFromPath
  simp

/-- Claim C10 witness: `resolvePath("README.md", "./x.md") = "/./x.md"`
and the composed URL carries `//` after the SHA. -/
theorem resolvePath_root_file_double_slash_witness :
    ("README.md".data ≠ [] ∧ '/' ∉ "README.md".data
      ∧ ("./x.md".data : List Char).head? ≠ some '/' ∧ isHttpUrl ("./x.md".data) = false)
    ∧ resolvePath ("README.md".data) ("./x.md".data) = '/' :: "./x.md".data
    ∧ githubUrlFromPath ("o/r".data) ("sha1".data) (resolvePath ("README.md".data) ("./x.md".data))
        = "https://github.com/".data ++ "o/r".data ++ "/blob/".data ++ "sha1".data
            ++ '/' :: '/' :: "./x.md".data :=
  ⟨⟨by decide, by decide, by decide, by decide⟩,
    (resolvePath_root_file_double_slash ("o/r".data) ("sha1".data) ("README.md".data) ("./x.md".data)
      (by decide) (by decide) (by decide) (by decide)).1,
    (resolvePath_root_file_double_slash ("o/r".data) ("sha1".data) ("README.md".data) ("./x.md".data)
      (by decide) (by decide) (by decide) (by decide)).2⟩

/-- Claim C1: when the primary strategy returns a response, the outcome
carries that status (even a non-2xx one) and the fallback is not invoked;
when the primary strategy throws, the fallback is invoked, and a
successful fallback yields an outcome carrying the fallback status (the
primary error is retained as diagnostic context). -/
theorem checkLink_fallback_iff_primary_throws
    (primary fallback : List Char → Except JsError Nat) (repo sha file href : List Char) :
    (∀ s, primary (resolvedUrl repo sha file href) = Except.ok s →
      checkLink primary fallback repo sha file href
        = (Except.ok ⟨some s, href, none, none⟩, false))
    ∧ (∀ e, primary (resolvedUrl repo sha file href) = Except.error e →
        (checkLink primary fallback repo sha file href).2 = true
        ∧ ∀ s, fallback (resolvedUrl repo sha file href) = Except.ok s →
            checkLink primary fallback repo sha file href
              = (Except.ok ⟨some s, href, some e, none⟩, true)) := by
  constructor
  · intro s hp
    unfold checkLink
    rw [hp]
  · intro e hp
    constructor
    · unfold checkLink
      rw [hp]
      cases fallback (resolvedUrl repo sha file href) <;> rfl
    · intro s hf
      unfold checkLink
      rw [hp, hf]

/-- Claim C1 witness: a primary 404 short-circuits the fallback; a
throwing primary with a 200 fallback yields status 200 with the primary
error retained. -/
theorem checkLink_fallback_iff_primary_throws_witness :
    checkLink (fun _ => Except.ok 404) (fun _ => Except.ok 200)
        ("o/r".data) ("s".data) ("a.md".data) ("https://x".data)
      = (Except.ok ⟨some 404, "https://x".data, none, none⟩, false)
    ∧ checkLink (fun _ => Except.error ⟨"boom".data⟩) (fun _ => Except.ok 200)
        ("o/r".data) ("s".data) ("a.md".data) ("https://x".data)
      = (Except.ok ⟨some 200, "https://x".data, some ⟨"boom".data⟩, none⟩, true) :=
  ⟨(checkLink_fallback_iff_primary_throws _ _ _ _ _ _).1 404 rfl,
    ((checkLink_fallback_iff_primary_throws _ _ _ _ _ _).2 ⟨"boom".data⟩ rfl).2 200 rfl⟩

/-- Claim C5 counterexample: when both strategies fail, the link check
does NOT recover the error into an outcome: the promise rejects with the
fallback error and no VerificationOutcome exists for the link; moreover a
rejected entry aborts the per-file report, so the outcome of a later link
in the same file is never reported. -/
theorem checkLink_both_fail_yields_no_outcome :
    checkLink (fun _ => Except.error ⟨"nav timeout".data⟩)
        (fun _ => Except.error ⟨"fetch refused".data⟩)
        ("o/r".data) ("sha1".data) ("a.md".data) ("https://example.com".data)
      = (Except.error ⟨"fetch refused".data⟩, true)
    ∧ reportFileChecks
        [Except.ok ⟨some 200, "https://a".data, none, none⟩,
         Except.error ⟨"fetch refused".data⟩,
         Except.ok ⟨some 200, "https://b".data, none, none⟩]
      = ([⟨some 200, "https://a".data, none, none⟩], [], true) :=
  ⟨rfl, rfl⟩

/-- Claim C5 amended: primary-strategy errors are recovered locally (the
fallback runs and its status forms the outcome, retaining the primary
error), but a fallback-strategy error escapes the link check as a
rejection: no outcome is produced for that link and the per-file report
stops at it, leaving later links of the file unreported. -/
theorem checkLink_fallback_error_escapes (e1 e2 : JsError) (s : Nat)
    (repo sha file href : List Char) (o : VerificationOutcome) (e : JsError)
    (rest : List (Except JsError VerificationOutcome)) :
    checkLink (fun _ => Except.error e1) (fun _ => Except.ok s) repo sha file href
      = (Except.ok ⟨some s, href, some e1, none⟩, true)
    ∧ checkLink (fun _ => Except.error e1) (fun _ => Except.error e2) repo sha file href
      = (Except.error e2, true)
    ∧ reportFileChecks (Except.ok o :: Except.error e :: rest)
      = ([o], if isFailureOutcome o then [o] else [], true) := by
  refine ⟨rfl, rfl, ?_⟩
  simp [reportFileChecks]

/-- Claim C6: every outcome actually produced by the verifier has its
status field set (so status and error are never both absent), and the
failure classification is a function of that status alone, with the
diagnostic error field not consulted. -/
theorem outcome_status_set_and_decisive
    (primary fallback : List Char → Except JsError Nat) (repo sha file href : List Char)
    (o : VerificationOutcome) (b : Bool)
    (h : checkLink primary fallback repo sha file href = (Except.ok o, b)) :
    ∃ s, o.status = some s
      ∧ isFailureOutcome o = (decide (s < 200) || decide (300 ≤ s)) := by
  unfold checkLink at h
  cases hp : primary (resolvedUrl repo sha file href) with
  | ok s =>
    rw [hp] at h
    have ho : ({ status := some s, original := href, error := none, file := none }
        : VerificationOutcome) = o := Except.ok.inj (congrArg Prod.fst h)
    exact ⟨s, by rw [← ho], by rw [← ho]; simp [isFailureOutcome, statusOutside2xx]⟩
  | error e =>
    rw [hp] at h
    cases hf : fallback (resolvedUrl repo sha file href) with
    | ok s2 =>
      rw [hf] at h
      have ho : ({ status := some s2, original := href, error := some e, file := none }
          : VerificationOutcome) = o := Except.ok.inj (congrArg Prod.fst h)
      exact ⟨s2, by rw [← ho], by rw [← ho]; simp [isFailureOutcome, statusOutside2xx]⟩
    | error e2 =>
      rw [hf] at h
      exact absurd (congrArg Prod.fst h) (by simp)

/-- Claim C6 witness: an outcome built from a throwing primary and a 200
fallback has a status, and its classification is by that status alone. -/
theorem outcome_status_set_and_decisive_witness :
    ∃ s, (⟨some 200, "https://x".data, some ⟨"boom".data⟩, none⟩ : VerificationOutcome).status
        = some s
      ∧ isFailureOutcome ⟨some 200, "https://x".data, some ⟨"boom".data⟩, none⟩
          = (decide (s < 200) || decide (300 ≤ s)) :=
  outcome_status_set_and_decisive
    (fun _ => Except.error ⟨"boom".data⟩) (fun _ => Except.ok 200)
    ("o/r".data) ("s".data) ("a.md".data) ("https://x".data) _ true rfl

/-- Claim C2: the `part_000` failure test routes exactly the statuses
outside [200,300) to the failure branch, but the `part_001` iteration
increments its error counter exactly on the statuses inside [200,300),
the inverse of the claimed counting. -/
theorem part001_error_count_inverted :
    statusOutside2xx (some 404) = true
    ∧ statusOutside2xx (some 200) = false
    ∧ part001ErrorCounted (some 200) = true
    ∧ part001ErrorCounted (some 404) = false := by decide

/-- Claim C3: with one failing outcome present, building the failure table
throws (the outcome has no file property), so the run exits 1 via the
unhandledRejection handler WITHOUT printing the table or totals; with no
failures the summary is printed and the exit code is 0.  The claimed
"report is produced regardless" fails on the failing side. -/
theorem summary_not_produced_on_failures :
    (checkLink (fun _ => Except.ok 404) (fun _ => Except.ok 200)
        ("o/r".data) ("sha1".data) ("a.md".data) ("https://example.com/x".data)).1
      = Except.ok ⟨some 404, "https://example.com/x".data, none, none⟩
    ∧ summaryStage ("root".data) [⟨some 404, "https://example.com/x".data, none, none⟩]
        = (1, false)
    ∧ summaryStage ("root".data) [] = (0, true) :=
  ⟨rfl, rfl, rfl⟩

/-- Claim C8: the outcome produced by `checkLink` for a failing link does
not carry the source file (its file field is none, matching the source
object literals), and therefore building its summary-table row throws the
TypeError instead of rendering status, shortened link and file path. -/
theorem outcome_has_no_file_field :
    checkLink (fun _ => Except.ok 404) (fun _ => Except.ok 200)
        ("own/repo".data) ("sha1".data) ("a.md".data) ("https://x".data)
      = (Except.ok ⟨some 404, "https://x".data, none, none⟩, false)
    ∧ (⟨some 404, "https://x".data, none, none⟩ : VerificationOutcome).file = none
    ∧ buildRows ("root".data) [⟨some 404, "https://x".data, none, none⟩]
        = Except.error jsTypeError :=
  ⟨rfl, rfl, rfl⟩

/-- Claim C4 counterexample: with two discovered files and the valid
completion order in which the second file finishes first, the `part_000`
transcript lists the per-file sections in completion order, not in
discovery order. -/
theorem part000_report_not_discovery_order :
    ([1, 0] : List Nat).Perm (List.range (["a.md".data, "b.md".data].length))
    ∧ part000Report ["a.md".data, "b.md".data] [1, 0] = ["b.md".data, "a.md".data]
    ∧ part000Report ["a.md".data, "b.md".data] [1, 0] ≠ ["a.md".data, "b.md".data] := by
  refine ⟨by decide, by decide, by decide⟩

/-- Setting an index then reading it back yields the written value, for
in-range indices. -/
lemma get_set_self {β : Type} (l : List β) (i : Nat) (b : β) (h : i < l.length) :
    (l.set i b)[i]? = some b := by
  induction l generalizing i with
  | nil => simp at h
  | cons a l ih =>
    cases i with
    | zero => simp
    | succ n => simpa using ih n (by simpa using h)

/-- Setting one index leaves reads of any other index unchanged. -/
lemma get_set_ne {β : Type} (l : List β) (i j : Nat) (b : β) (h : i ≠ j) :
    (l.set i b)[j]? = l[j]? := by
  induction l generalizing i j with
  | nil => simp
  | cons a l ih =>
    cases i with
    | zero =>
      cases j with
      | zero => exact absurd rfl h
      | succ m => simp
    | succ n =>
      cases j with
      | zero => simp
      | succ m => simpa using ih n m (fun e => h (by rw [e]))

/-- Setting an out-of-range index is a no-op. -/
lemma set_of_length_le {β : Type} (l : List β) (i : Nat) (b : β) (h : l.length ≤ i) :
    l.set i b = l := by
  induction l generalizing i with
  | nil => simp
  | cons a l ih =>
    cases i with
    | zero => simp at h
    | succ n => simpa using ih n (by simpa using h)

/-- Filling slots in any completion order: slot `j` ends up holding the
value for index `j` as soon as `j` was scheduled and is in range. -/
lemma foldl_set_get {α : Type} (files : List α) (sched : List Nat)
    (slots : List (Option α)) (j : Nat) :
    (sched.foldl (fun sl i => sl.set i files[i]?) slots)[j]? =
      if j ∈ sched ∧ j < slots.length then some files[j]? else slots[j]? := by
  induction sched generalizing slots with
  | nil => simp
  | cons i rest ih =>
    simp only [List.foldl_cons]
    rw [ih]
    rw [List.length_set]
    by_cases hr : j ∈ rest ∧ j < slots.length
    · rw [if_pos hr, if_pos ⟨List.mem_cons_of_mem i hr.1, hr.2⟩]
    · rw [if_neg hr]
      by_cases hij : i = j
      · subst hij
        by_cases hlen : i < slots.length
        · rw [get_set_self _ _ _ hlen, if_pos ⟨List.mem_cons_self i rest, hlen⟩]
        · rw [set_of_length_le _ _ _ (Nat.le_of_not_lt hlen),
            if_neg (fun hc => hlen hc.2)]
      · have hcond : ¬(j ∈ i :: rest ∧ j < slots.length) := by
          rintro ⟨hm, hl⟩
          rcases List.mem_cons.mp hm with he | hm2
          · exact hij he.symm
          · exact hr ⟨hm2, hl⟩
        rw [get_set_ne _ _ _ _ hij, if_neg hcond]

/-- Claim C4 amended: only the earlier iteration (second program of
`part_002`), which collects every result into its original slot and
renders afterwards, presents the files in discovery order for every
completion order; the `part_000` transcript presents sections in
completion order. -/
theorem settleSlots_discovery_order {α : Type} (files : List α) (sched : List Nat)
    (h : sched.Perm (List.range files.length)) :
    settleSlots files sched = files.map some := by
  apply List.ext_getElem?
  intro j
  unfold settleSlots
  rw [foldl_set_get]
  rw [List.length_replicate]
  have hmem : j ∈ sched ↔ j < files.length := by
    rw [h.mem_iff, List.mem_range]
  by_cases hj : j < files.length
  · rw [if_pos ⟨hmem.mpr hj, hj⟩]
    rw [List.getElem?_map]
    cases hv : files[j]? with
    | none => exact absurd (List.getElem?_eq_none_iff.mp hv) (Nat.not_le.mpr hj)
    | some v => simp [hv]
  · rw [if_neg (fun hc => hj hc.2)]
    rw [List.getElem?_map]
    have h1 : (List.replicate files.length (none : Option α))[j]? = none := by
      apply List.getElem?_eq_none
      simpa using Nat.le_of_not_lt hj
    have h2 : files[j]? = none := List.getElem?_eq_none (Nat.le_of_not_lt hj)
    rw [h1, h2]
    rfl

/-- Claim C4 amended witness: two files completing in reversed order are
still rendered in discovery order by the collect-then-render iteration. -/
theorem settleSlots_discovery_order_witness :
    ([1, 0] : List Nat).Perm (List.range (["a.md".data, "b.md".data].length))
    ∧ settleSlots ["a.md".data, "b.md".data] [1, 0]
        = ["a.md".data, "b.md".data].map some :=
  ⟨by decide, settleSlots_discovery_order ["a.md".data, "b.md".data] [1, 0] (by decide)⟩

/-- Claim C9: from the initial state (all submitted tasks queued, nothing
in flight), every reachable dispatcher state has at most N tasks in
flight, and the queue is always a suffix of the submission list (FIFO:
only the head is ever admitted). -/
theorem pool_inflight_bounded (N : Nat) (tasks : List Nat) (s : PoolState)
    (h : PoolReaches N ⟨tasks, []⟩ s) :
    s.inflight.length ≤ N ∧ ∃ k, s.queued = tasks.drop k := by
  induction h with
  | refl => exact ⟨Nat.zero_le N, 0, rfl⟩
  | tail _ hstep ih =>
    cases hstep with
    | start t q fl hlt =>
      obtain ⟨hlen, k, hq⟩ := ih
      refine ⟨by simpa using hlt, k + 1, ?_⟩
      have hdrop : tasks.drop (k + 1) = (tasks.drop k).drop 1 := by
        rw [List.drop_drop, Nat.add_comm]
      rw [hdrop, ← hq]
      rfl
    | finish q pre post t =>
      obtain ⟨hlen, k, hq⟩ := ih
      refine ⟨?_, k, hq⟩
      simp only [List.length_append, List.length_cons] at hlen ⊢
      omega

/-- Claim C9 witness: with pool size 2 and three submitted tasks, the
state reached by admitting the first task has one task in flight (at most
2) and the remaining queue is a suffix of the submission list. -/
theorem pool_inflight_bounded_witness :
    (⟨[1, 2], [0]⟩ : PoolState).inflight.length ≤ 2
    ∧ ∃ k, (⟨[1, 2], [0]⟩ : PoolState).queued = ([0, 1, 2] : List Nat).drop k :=
  pool_inflight_bounded 2 [0, 1, 2] ⟨[1, 2], [0]⟩
    (PoolReaches.tail (PoolReaches.refl _) (PoolStep.start 0 [1, 2] [] (by decide)))

end Standard
